import Mathlib

/-!
Verification of the schema-alignment / normalization / idempotent-load logic
of `data_loader.py` (the loader of the synthetic e-commerce dataset).

The embedding models a pandas dataframe as an ordered list of column names
together with rows, each row a total mapping from column name to cell value
(the spec's data model: "each row is a mapping from column name to value").
Cell values are a closed sum of the forms the loader distinguishes:
null (Python `None`), float NaN, the two infinities, booleans, integers, strings.
The MySQL schema authority is modelled as an ordered association list from
column name to declared column type; the persistence sink is modelled as a
list of stored rows with an "ignore on conflict with existing primary key"
insert, keyed by an arbitrary primary-key projection.
-/

namespace AgLoader

/-- A cell value of a loaded dataframe. -/
inductive Value where
  | vNull
  | vNaN
  | vInf
  | vNegInf
  | vBool (b : Bool)
  | vInt (n : Int)
  | vStr (s : String)
deriving DecidableEq, Repr

/-- A dataframe: an ordered list of column names, and rows.  Each row is a
total map from column name to value; only the names listed in `cols` are
meaningful (pandas has no cell outside its columns, and no operation below
reads one). -/
structure DataFrame where
  cols : List String
  rows : List (String → Value)

/-- Number of rows. -/
def DataFrame.nRows (df : DataFrame) : Nat := df.rows.length

/-- The column `c` of the dataframe, as the list of its cells in row order
(pandas `df[c]` read). -/
def DataFrame.getCol (df : DataFrame) (c : String) : List Value :=
  df.rows.map (fun r => r c)

/-- Pandas `df[c] = v` with a scalar `v`: overwrite the column if present,
append it at the end of the column order otherwise; every row gets `v`. -/
def DataFrame.setConst (df : DataFrame) (c : String) (v : Value) : DataFrame :=
  ⟨if df.cols.contains c then df.cols else df.cols ++ [c],
   df.rows.map (fun r x => if x = c then v else r x)⟩

/-- Pandas `df[c] = df[c].map g` for a column already present: apply `g` to
every cell of column `c`; the column order is unchanged. -/
def DataFrame.mapCol (df : DataFrame) (c : String) (g : Value → Value) : DataFrame :=
  ⟨df.cols, df.rows.map (fun r x => if x = c then g (r x) else r x)⟩

/-- Pandas `df[cs]` column selection/reordering: succeeds only when every
requested column is present (otherwise pandas raises `KeyError`). -/
def DataFrame.select (df : DataFrame) (cs : List String) : Option DataFrame :=
  if cs.all (fun c => df.cols.contains c) then some ⟨cs, df.rows⟩ else none

/-- `data_loader.normalise_nulls`, cell level: the replacement dictionary
`{np.nan: None, np.inf: None, -np.inf: None, "nan": None, "NaN": None,
"None": None, "": None}` — the listed raw forms become `None`, any other
cell is left as it is. -/
def normalise_value (v : Value) : Value :=
  match v with
  | .vNaN => .vNull
  | .vInf => .vNull
  | .vNegInf => .vNull
  | .vStr s => if s = "nan" ∨ s = "NaN" ∨ s = "None" ∨ s = "" then .vNull else .vStr s
  | v => v

/-- `data_loader.normalise_nulls`: `df.replace({...})` applied to every cell
of the dataframe. -/
def normalise_nulls (df : DataFrame) : DataFrame :=
  ⟨df.cols, df.rows.map (fun r c => normalise_value (r c))⟩

/-- Python `str(v)` on the cell values the loader can see (`astype(str)`):
`str(None) = "None"`, `str(np.nan) = "nan"`, `str(np.inf) = "inf"`,
`str(-np.inf) = "-inf"`, `str(True) = "True"`, `str(False) = "False"`,
integers and strings print themselves. -/
def pyStr : Value → String
  | .vNull => "None"
  | .vNaN => "nan"
  | .vInf => "inf"
  | .vNegInf => "-inf"
  | .vBool b => if b then "True" else "False"
  | .vInt n => toString n
  | .vStr s => s

/-- Python `.str.lower()`, character-wise lower-casing (ASCII range, which
covers every value the loader's truthy set compares against). -/
def py_lower (s : String) : String := String.mk (s.data.map Char.toLower)

/-- The truthy text forms of `data_loader.to_bool_int`:
`["true","1","t","yes","y"]`. -/
def truthy_strings : List String := ["true", "1", "t", "yes", "y"]

/-- `data_loader.to_bool_int`, cell level:
`df[c].astype(str).str.lower().isin(["true","1","t","yes","y"]).astype(int)` —
text of the value, lower-cased, membership in the truthy set, as 1 or 0. -/
def to_bool_int_value (v : Value) : Value :=
  .vInt (if truthy_strings.contains (py_lower (pyStr v)) then 1 else 0)

/-- `data_loader.to_bool_int`: for each designated column that is present in
the dataframe, replace the column by its boolean-as-int normalization. -/
def to_bool_int (df : DataFrame) (cols : List String) : DataFrame :=
  cols.foldl (fun d c => if d.cols.contains c then d.mapCol c to_bool_int_value else d) df

/-- The schema authority's state for one table: the ordered list of its
columns, each with its declared SQL type. -/
abbrev Schema := List (String × String)

/-- `data_loader.get_table_columns` (`SHOW COLUMNS FROM`): the ordered column
names of the table. -/
def get_table_columns (schema : Schema) : List String := schema.map Prod.fst

/-- `data_loader.ensure_extra_columns_as_null`: one
`ALTER TABLE ... ADD COLUMN col TEXT NULL;` per extra column, in list
order — each appends the column, typed `TEXT NULL`, to the table. -/
def ensure_extra_columns_as_null (schema : Schema) (extra_cols : List String) : Schema :=
  schema ++ extra_cols.map (fun col => (col, "TEXT NULL"))

/-- The loops `for c in extra: df[c] = None` and `for c in missing:
df[c] = None` of `align_df_to_table`. -/
def set_cols_null (df : DataFrame) (cs : List String) : DataFrame :=
  cs.foldl (fun d c => d.setConst c Value.vNull) df

/-- `df = df[[c for c in df.columns if c in table_cols]]`: the drop-extras
branch of `align_df_to_table` keeps only the columns present in the table. -/
def drop_extras (df : DataFrame) (table_cols : List String) : DataFrame :=
  ⟨df.cols.filter (fun c => table_cols.contains c), df.rows⟩

/-- `extra = [c for c in df.columns if c not in table_cols]` of
`align_df_to_table`: the dataset columns absent from the table, in dataset
column order. -/
def extra_of (schema : Schema) (df : DataFrame) : List String :=
  df.cols.filter (fun c => !((get_table_columns schema).contains c))

/-- `missing = [c for c in table_cols if c not in df.columns]` of
`align_df_to_table`: the table columns absent from the dataset. -/
def missing_of (table_cols : List String) (df : DataFrame) : List String :=
  table_cols.filter (fun c => !(df.cols.contains c))

/-- The outcome of `align_df_to_table`: the realigned dataframe (`none` if
the final `df[table_cols]` reordering would raise), the final column order
returned with it, the schema (possibly extended), and whether the
drop-extras branch ran (the `"dropping extra columns"` notice). -/
structure AlignResult where
  out : Option DataFrame
  table_cols : List String
  schema : Schema
  droppedExtras : Bool

/-- `data_loader.align_df_to_table`: fetch the table's columns, compute the
extra and missing columns; if there are extras and `add_extras_as_null` is
set, extend the table with them (`TEXT NULL`), re-fetch the columns, null
out the extras' values and recompute `missing`; otherwise (extras, flag
unset) drop the extras; then add every missing column as all-null and
reorder to the table's column order. -/
def align_df_to_table (schema : Schema) (df : DataFrame) (add_extras_as_null : Bool) :
    AlignResult :=
  let table_cols := get_table_columns schema
  let extra := extra_of schema df
  let missing := missing_of table_cols df
  if !extra.isEmpty && add_extras_as_null then
    let schema1 := ensure_extra_columns_as_null schema extra
    let table_cols1 := get_table_columns schema1
    let df1 := set_cols_null df extra
    let missing1 := missing_of table_cols1 df1
    let df2 := set_cols_null df1 missing1
    ⟨df2.select table_cols1, table_cols1, schema1, false⟩
  else if !extra.isEmpty then
    let df1 := drop_extras df table_cols
    let df2 := set_cols_null df1 missing
    ⟨df2.select table_cols, table_cols, schema, true⟩
  else
    let df2 := set_cols_null df missing
    ⟨df2.select table_cols, table_cols, schema, false⟩

/-- `data_loader.chunked`: `for i in range(0, len(df), size): yield
df.iloc[i:i+size]` — consecutive slices of at most `size` rows (meaningful
for `size > 0`; Python's `range` refuses a zero step). -/
def chunked (l : List α) (size : Nat) : List (List α) :=
  if h : size = 0 then []
  else if he : l.isEmpty then []
  else l.take size :: chunked (l.drop size) size
termination_by l.length
decreasing_by
  simp only [List.length_drop]
  have hl : l ≠ [] := by simpa [List.isEmpty_iff] using he
  have : 0 < l.length := List.length_pos.mpr hl
  omega

/-- A stored database row, as the tuple of its cell values in column order
(`tuple(x) for x in part.to_numpy()`). -/
abbrev Row := List Value

/-- The MySQL `INSERT IGNORE` sink, modelled per the spec's persistence
contract: a row whose primary key (projection `k`) already appears among the
stored rows is silently skipped; any other row is appended.  Rows of a batch
are processed in order. -/
def insert_ignore (k : Row → Value) (stored : List Row) (batch : List Row) : List Row :=
  batch.foldl (fun st r => if st.any (fun s0 => k s0 = k r) then st else st ++ [r]) stored

/-- The insert loop of `data_loader.load_table`: `for part in chunked(df,
5000): cursor.executemany(sql, ...)` against the ignore-on-conflict sink. -/
def load_insert (k : Row → Value) (stored : List Row) (tuples : List Row) : List Row :=
  (chunked tuples 5000).foldl (fun st part => insert_ignore k st part) stored

/-- The SQL text `data_loader.load_table` builds:
`INSERT IGNORE INTO `t` (`c1`, `c2`, ...) VALUES (%s,%s,...)`. -/
def insert_sql (table : String) (cols : List String) : String :=
  "INSERT IGNORE INTO `" ++ table ++ "` (" ++
    String.intercalate ", " (cols.map (fun c => "`" ++ c ++ "`")) ++
    ") VALUES (" ++ String.intercalate "," (List.replicate cols.length "%s") ++ ")"

/-- `data_loader.BOOL_COLS`: the designated boolean columns of each table
(`BOOL_COLS.get(table, [])`). -/
def BOOL_COLS (table : String) : List String :=
  if table = "product_variants" then ["mount_included_flag"]
  else if table = "product_listings" then ["is_active"]
  else if table = "customers" then ["repeat_customer_flag"]
  else []

/-- The result of one `load_table` call: the sink's rows after the inserts
(`none` if alignment raised, which the development proves cannot happen),
the schema after any extension, and the SQL text used. -/
structure LoadResult where
  stored : Option (List Row)
  schema : Schema
  sql : String

/-- `data_loader.load_table`: null-normalise the whole dataframe, normalise
the table's designated boolean columns, align to the table (possibly
extending the schema), then insert row tuples in column order, in batches of
5000, under `INSERT IGNORE`. -/
def load_table (k : Row → Value) (stored : List Row) (schema : Schema) (table : String)
    (df : DataFrame) (add_extras_as_null : Bool) : LoadResult :=
  let df1 := normalise_nulls df
  let df2 := to_bool_int df1 (BOOL_COLS table)
  let ar := align_df_to_table schema df2 add_extras_as_null
  match ar.out with
  | none => ⟨none, ar.schema, ""⟩
  | some dfA =>
      let sql := insert_sql table ar.table_cols
      let tuples := dfA.rows.map (fun r => dfA.cols.map r)
      ⟨some (load_insert k stored tuples), ar.schema, sql⟩

/-- `data_loader.LOAD_ORDER`: the fixed dependency-safe table order of
`main`. -/
def LOAD_ORDER : List String :=
  ["brands", "platforms", "categories", "platform_fees", "marketplace_accounts",
   "products", "product_variants", "product_listings", "listing_prices", "channel_inventory",
   "customers",
   "orders", "order_items", "order_fees", "payments", "shipments", "returns", "return_items",
   "reviews",
   "warehouses", "inventory"]

/-- What `main`'s loop does with one table name: `[SKIP]` (file absent,
`continue`) or `[LOAD]`. -/
inductive TableOutcome where
  | skipped
  | loaded
deriving DecidableEq, Repr

/-- The per-table loop of `data_loader.main`: for each name of the load
order, skip it with a notice when its CSV is absent, load it otherwise, and
go on to the next name either way. -/
def processTables (present : String → Bool) : List String → List (String × TableOutcome)
  | [] => []
  | n :: rest =>
      if present n then (n, TableOutcome.loaded) :: processTables present rest
      else (n, TableOutcome.skipped) :: processTables present rest

/-- The argparse declaration
`add_argument("--add-extras-as-null", action="store_true", default=True)`:
the parsed value is `True` when the flag is on the command line (store_true
stores `True`) and the default `True` when it is not. -/
def parse_add_extras_as_null (flag_on_command_line : Bool) : Bool :=
  if flag_on_command_line then true else true

/-- The null-like raw forms enumerated by the spec (float NaN, the two
infinities, and the strings `"nan"`, `"NaN"`, `"None"`, `""`). -/
def null_like (v : Value) : Prop :=
  v = .vNaN ∨ v = .vInf ∨ v = .vNegInf ∨
    v = .vStr "nan" ∨ v = .vStr "NaN" ∨ v = .vStr "None" ∨ v = .vStr ""

/-- The spec's boolean scenario: a boolean-designated column holding
`["Yes", "0", "TRUE", "maybe"]`. -/
def bool_scenario_df : DataFrame :=
  ⟨["flag"],
   [fun _ => .vStr "Yes", fun _ => .vStr "0", fun _ => .vStr "TRUE", fun _ => .vStr "maybe"]⟩

/-- A one-row dataset for the `customers` table whose designated boolean
column `repeat_customer_flag` holds the string `"nan"`. -/
def bool_nan_df : DataFrame :=
  ⟨["repeat_customer_flag"], [fun _ => Value.vStr "nan"]⟩

/-- The spec's extension scenario: dataset columns `{id, name,
category_name}` with one row of values. -/
def scenario_df : DataFrame :=
  ⟨["id", "name", "category_name"],
   [fun c => if c = "id" then .vInt 1
     else if c = "name" then .vStr "poster" else .vStr "art"]⟩

/-- The spec's extension scenario: a target table with columns
`{id, name}`. -/
def scenario_schema : Schema := [("id", "INT"), ("name", "TEXT")]

/-! ## Basic dataframe lemmas -/

theorem contains_iff_mem (l : List String) (a : String) : l.contains a = true ↔ a ∈ l := by
  simp [List.elem_iff]

theorem setConst_rows_length (df : DataFrame) (c : String) (v : Value) :
    (df.setConst c v).rows.length = df.rows.length := by
  simp [DataFrame.setConst]

theorem mem_setConst_cols (df : DataFrame) (c : String) (v : Value) (x : String) :
    x ∈ (df.setConst c v).cols ↔ x ∈ df.cols ∨ x = c := by
  unfold DataFrame.setConst
  by_cases h : df.cols.contains c
  · have hc : c ∈ df.cols := (contains_iff_mem _ _).mp h
    simp only [h, if_true]
    constructor
    · exact Or.inl
    · rintro (hx | rfl)
      · exact hx
      · exact hc
  · have hc : c ∉ df.cols := fun hm => h ((contains_iff_mem _ _).mpr hm)
    simp [h, hc]

theorem getCol_setConst (df : DataFrame) (c : String) (v : Value) (x : String) :
    (df.setConst c v).getCol x =
      if x = c then List.replicate df.rows.length v else df.getCol x := by
  unfold DataFrame.setConst DataFrame.getCol
  simp only [List.map_map]
  by_cases h : x = c
  · subst h
    have : ((fun r : String → Value => r x) ∘
        fun (r : String → Value) (x1 : String) => if x1 = x then v else r x1) =
        fun _ : String → Value => v := by
      funext r
      simp
    rw [this, List.map_const', if_pos rfl]
  · have : ((fun r : String → Value => r x) ∘
        fun (r : String → Value) (x1 : String) => if x1 = c then v else r x1) =
        fun r : String → Value => r x := by
      funext r
      simp [h]
    rw [this, if_neg h]

theorem set_cols_null_cons (df : DataFrame) (c : String) (cs : List String) :
    set_cols_null df (c :: cs) = set_cols_null (df.setConst c Value.vNull) cs := rfl

theorem set_cols_null_rows_length (cs : List String) (df : DataFrame) :
    (set_cols_null df cs).rows.length = df.rows.length := by
  induction cs generalizing df with
  | nil => rfl
  | cons c cs ih =>
    rw [set_cols_null_cons, ih, setConst_rows_length]

theorem mem_set_cols_null_cols (cs : List String) (df : DataFrame) (x : String) :
    x ∈ (set_cols_null df cs).cols ↔ x ∈ df.cols ∨ x ∈ cs := by
  induction cs generalizing df with
  | nil => simp [set_cols_null]
  | cons c cs ih =>
    rw [set_cols_null_cons, ih, mem_setConst_cols]
    simp only [List.mem_cons]
    tauto

theorem getCol_set_cols_null (cs : List String) (df : DataFrame) (x : String) :
    (set_cols_null df cs).getCol x =
      if x ∈ cs then List.replicate df.rows.length Value.vNull else df.getCol x := by
  induction cs generalizing df with
  | nil => simp [set_cols_null]
  | cons c cs ih =>
    rw [set_cols_null_cons, ih]
    by_cases hx : x ∈ cs
    · simp [hx, List.mem_cons, setConst_rows_length]
    · by_cases hxc : x = c
      · subst hxc
        simp [hx, getCol_setConst]
      · simp [hx, hxc, getCol_setConst, List.mem_cons]

theorem select_eq_some (df : DataFrame) (cs : List String)
    (h : ∀ c ∈ cs, c ∈ df.cols) :
    df.select cs = some ⟨cs, df.rows⟩ := by
  unfold DataFrame.select
  rw [if_pos]
  exact List.all_eq_true.mpr fun c hc => (contains_iff_mem _ _).mpr (h c hc)

theorem getCol_mk (cs : List String) (rows : List (String → Value)) (c : String) :
    DataFrame.getCol ⟨cs, rows⟩ c = rows.map (fun r => r c) := rfl

/-! ## Extra/missing columns and the alignment branches -/

theorem mem_extra_of (schema : Schema) (df : DataFrame) (c : String) :
    c ∈ extra_of schema df ↔ c ∈ df.cols ∧ c ∉ get_table_columns schema := by
  unfold extra_of
  simp [List.mem_filter]

theorem mem_missing_of (tc : List String) (df : DataFrame) (c : String) :
    c ∈ missing_of tc df ↔ c ∈ tc ∧ c ∉ df.cols := by
  unfold missing_of
  simp [List.mem_filter]

theorem drop_extras_rows (df : DataFrame) (tc : List String) :
    (drop_extras df tc).rows = df.rows := rfl

theorem mem_drop_extras_cols (df : DataFrame) (tc : List String) (x : String) :
    x ∈ (drop_extras df tc).cols ↔ x ∈ df.cols ∧ x ∈ tc := by
  unfold drop_extras
  simp [List.mem_filter]

theorem get_table_columns_ensure (schema : Schema) (ex : List String) :
    get_table_columns (ensure_extra_columns_as_null schema ex) =
      get_table_columns schema ++ ex := by
  unfold get_table_columns ensure_extra_columns_as_null
  have hid : (Prod.fst ∘ fun col : String => (col, "TEXT NULL")) = id := by
    funext c
    rfl
  simp [hid]

theorem align_extend_eq (schema : Schema) (df : DataFrame)
    (hex : extra_of schema df ≠ []) :
    align_df_to_table schema df true =
      ⟨(set_cols_null (set_cols_null df (extra_of schema df))
          (missing_of
            (get_table_columns (ensure_extra_columns_as_null schema (extra_of schema df)))
            (set_cols_null df (extra_of schema df)))).select
          (get_table_columns (ensure_extra_columns_as_null schema (extra_of schema df))),
       get_table_columns (ensure_extra_columns_as_null schema (extra_of schema df)),
       ensure_extra_columns_as_null schema (extra_of schema df), false⟩ := by
  unfold align_df_to_table
  have h : (!(extra_of schema df).isEmpty && true) = true := by
    simp [List.isEmpty_iff, hex]
  simp only [h, if_true]

theorem align_no_extra_eq (schema : Schema) (df : DataFrame) (b : Bool)
    (hex : extra_of schema df = []) :
    align_df_to_table schema df b =
      ⟨(set_cols_null df (missing_of (get_table_columns schema) df)).select
          (get_table_columns schema),
       get_table_columns schema, schema, false⟩ := by
  unfold align_df_to_table
  have h1 : (!(extra_of schema df).isEmpty && b) = false := by simp [hex]
  have h2 : (!(extra_of schema df).isEmpty) = false := by simp [hex]
  simp [h1, h2]

theorem align_drop_eq (schema : Schema) (df : DataFrame)
    (hex : extra_of schema df ≠ []) :
    align_df_to_table schema df false =
      ⟨(set_cols_null (drop_extras df (get_table_columns schema))
          (missing_of (get_table_columns schema) df)).select (get_table_columns schema),
       get_table_columns schema, schema, true⟩ := by
  unfold align_df_to_table
  have h1 : (!(extra_of schema df).isEmpty && false) = false := by simp
  have h2 : (!(extra_of schema df).isEmpty) = true := by simp [List.isEmpty_iff, hex]
  simp [h1, h2]

/-- Master lemma about `align_df_to_table`, covering all three branches: the
final reordering always succeeds; the output's columns are exactly the
returned table columns; the row count is that of the input; a dataset column
already known to the table passes through unchanged; and with the extend
flag set, every extra column comes out all-null. -/
theorem align_spec (schema : Schema) (df : DataFrame) (b : Bool) :
    ∃ o : DataFrame,
      (align_df_to_table schema df b).out = some o ∧
      o.cols = (align_df_to_table schema df b).table_cols ∧
      o.rows.length = df.rows.length ∧
      (∀ c, c ∈ df.cols → c ∈ get_table_columns schema → o.getCol c = df.getCol c) ∧
      (∀ c, c ∈ extra_of schema df → b = true →
        o.getCol c = List.replicate df.rows.length Value.vNull) := by
  by_cases hex : extra_of schema df = []
  · rw [align_no_extra_eq schema df b hex]
    have hsel : ∀ c ∈ get_table_columns schema,
        c ∈ (set_cols_null df (missing_of (get_table_columns schema) df)).cols := by
      intro c hc
      rw [mem_set_cols_null_cols]
      by_cases hdf : c ∈ df.cols
      · exact Or.inl hdf
      · exact Or.inr ((mem_missing_of _ _ _).mpr ⟨hc, hdf⟩)
    refine ⟨⟨get_table_columns schema,
        (set_cols_null df (missing_of (get_table_columns schema) df)).rows⟩,
      select_eq_some _ _ hsel, rfl, ?_, ?_, ?_⟩
    · simp [set_cols_null_rows_length]
    · intro c hcd _
      have hnot : c ∉ missing_of (get_table_columns schema) df := by
        rw [mem_missing_of]
        tauto
      have h := getCol_set_cols_null (missing_of (get_table_columns schema) df) df c
      rw [if_neg hnot] at h
      exact h
    · intro c hc _
      rw [hex] at hc
      cases hc
  · cases b with
    | true =>
      rw [align_extend_eq schema df hex]
      have htc1 : get_table_columns (ensure_extra_columns_as_null schema (extra_of schema df)) =
          get_table_columns schema ++ extra_of schema df := get_table_columns_ensure _ _
      have hsel : ∀ c ∈ get_table_columns (ensure_extra_columns_as_null schema (extra_of schema df)),
          c ∈ (set_cols_null (set_cols_null df (extra_of schema df))
            (missing_of
              (get_table_columns (ensure_extra_columns_as_null schema (extra_of schema df)))
              (set_cols_null df (extra_of schema df)))).cols := by
        intro c hc
        rw [mem_set_cols_null_cols]
        by_cases hdf : c ∈ (set_cols_null df (extra_of schema df)).cols
        · exact Or.inl hdf
        · exact Or.inr ((mem_missing_of _ _ _).mpr ⟨hc, hdf⟩)
      refine ⟨⟨get_table_columns (ensure_extra_columns_as_null schema (extra_of schema df)),
          (set_cols_null (set_cols_null df (extra_of schema df))
            (missing_of
              (get_table_columns (ensure_extra_columns_as_null schema (extra_of schema df)))
              (set_cols_null df (extra_of schema df)))).rows⟩,
        select_eq_some _ _ hsel, rfl, ?_, ?_, ?_⟩
      · simp [set_cols_null_rows_length]
      · intro c hcd hct
        have hcex : c ∉ extra_of schema df := by
          rw [mem_extra_of]
          tauto
        have h1 := getCol_set_cols_null (extra_of schema df) df c
        rw [if_neg hcex] at h1
        have hmem1 : c ∈ (set_cols_null df (extra_of schema df)).cols := by
          rw [mem_set_cols_null_cols]
          exact Or.inl hcd
        have hnot : c ∉ missing_of
            (get_table_columns (ensure_extra_columns_as_null schema (extra_of schema df)))
            (set_cols_null df (extra_of schema df)) := by
          rw [mem_missing_of]
          tauto
        have h2 := getCol_set_cols_null
          (missing_of
            (get_table_columns (ensure_extra_columns_as_null schema (extra_of schema df)))
            (set_cols_null df (extra_of schema df)))
          (set_cols_null df (extra_of schema df)) c
        rw [if_neg hnot] at h2
        calc DataFrame.getCol _ c
            = (set_cols_null (set_cols_null df (extra_of schema df))
                (missing_of
                  (get_table_columns (ensure_extra_columns_as_null schema (extra_of schema df)))
                  (set_cols_null df (extra_of schema df)))).getCol c := rfl
          _ = (set_cols_null df (extra_of schema df)).getCol c := h2
          _ = df.getCol c := h1
      · intro c hc _
        have h1 := getCol_set_cols_null (extra_of schema df) df c
        rw [if_pos hc] at h1
        have hmem1 : c ∈ (set_cols_null df (extra_of schema df)).cols := by
          rw [mem_set_cols_null_cols]
          exact Or.inr hc
        have hnot : c ∉ missing_of
            (get_table_columns (ensure_extra_columns_as_null schema (extra_of schema df)))
            (set_cols_null df (extra_of schema df)) := by
          rw [mem_missing_of]
          tauto
        have h2 := getCol_set_cols_null
          (missing_of
            (get_table_columns (ensure_extra_columns_as_null schema (extra_of schema df)))
            (set_cols_null df (extra_of schema df)))
          (set_cols_null df (extra_of schema df)) c
        rw [if_neg hnot] at h2
        calc DataFrame.getCol _ c
            = (set_cols_null (set_cols_null df (extra_of schema df))
                (missing_of
                  (get_table_columns (ensure_extra_columns_as_null schema (extra_of schema df)))
                  (set_cols_null df (extra_of schema df)))).getCol c := rfl
          _ = (set_cols_null df (extra_of schema df)).getCol c := h2
          _ = List.replicate df.rows.length Value.vNull := h1
    | false =>
      rw [align_drop_eq schema df hex]
      have hsel : ∀ c ∈ get_table_columns schema,
          c ∈ (set_cols_null (drop_extras df (get_table_columns schema))
            (missing_of (get_table_columns schema) df)).cols := by
        intro c hc
        rw [mem_set_cols_null_cols]
        by_cases hdf : c ∈ df.cols
        · exact Or.inl ((mem_drop_extras_cols _ _ _).mpr ⟨hdf, hc⟩)
        · exact Or.inr ((mem_missing_of _ _ _).mpr ⟨hc, hdf⟩)
      refine ⟨⟨get_table_columns schema,
          (set_cols_null (drop_extras df (get_table_columns schema))
            (missing_of (get_table_columns schema) df)).rows⟩,
        select_eq_some _ _ hsel, rfl, ?_, ?_, ?_⟩
      · simp [set_cols_null_rows_length, drop_extras]
      · intro c hcd _
        have hnot : c ∉ missing_of (get_table_columns schema) df := by
          rw [mem_missing_of]
          tauto
        have h := getCol_set_cols_null (missing_of (get_table_columns schema) df)
          (drop_extras df (get_table_columns schema)) c
        rw [if_neg hnot] at h
        exact h
      · intro c _ hb
        cases hb

/-- The column list `align_df_to_table` returns is the column list of the
schema it returns (in every branch). -/
theorem align_table_cols_eq_schema (schema : Schema) (df : DataFrame) (b : Bool) :
    (align_df_to_table schema df b).table_cols =
      get_table_columns (align_df_to_table schema df b).schema := by
  by_cases hex : extra_of schema df = []
  · rw [align_no_extra_eq schema df b hex]
  · cases b with
    | true => rw [align_extend_eq schema df hex]
    | false => rw [align_drop_eq schema df hex]

/-! ## The claims -/

/-- C1: for every dataset and target table, the dataframe
`align_df_to_table` returns is rectangular: the reordering succeeds, the
output's column list is exactly the final (possibly-extended) target column
list, in that order (so no extra and no missing columns), and the row count
equals the input's. -/
theorem C1_align_rectangular (schema : Schema) (df : DataFrame) (b : Bool) :
    (align_df_to_table schema df b).table_cols =
      get_table_columns (align_df_to_table schema df b).schema ∧
    ∃ o : DataFrame,
      (align_df_to_table schema df b).out = some o ∧
      o.cols = (align_df_to_table schema df b).table_cols ∧
      o.rows.length = df.rows.length := by
  refine ⟨align_table_cols_eq_schema schema df b, ?_⟩
  obtain ⟨o, h1, h2, h3, -, -⟩ := align_spec schema df b
  exact ⟨o, h1, h2, h3⟩

/-- C4: when the dataset has extra columns and the extend flag is set,
`align_df_to_table` extends the schema by exactly those columns, in their
order of first appearance in the dataset, each as a nullable `TEXT` column;
it re-fetches the column list (now the old list followed by the extras),
does not take the drop branch, and the output holds null for every extra
column in every row — the CSV-provided values are discarded. -/
theorem C4_extras_added_as_null (schema : Schema) (df : DataFrame)
    (hex : extra_of schema df ≠ []) :
    (align_df_to_table schema df true).schema =
      schema ++ (extra_of schema df).map (fun c => (c, "TEXT NULL")) ∧
    (align_df_to_table schema df true).table_cols =
      get_table_columns schema ++ extra_of schema df ∧
    (align_df_to_table schema df true).droppedExtras = false ∧
    ∃ o, (align_df_to_table schema df true).out = some o ∧
      ∀ c ∈ extra_of schema df, o.getCol c = List.replicate df.rows.length Value.vNull := by
  refine ⟨?_, ?_, ?_, ?_⟩
  · rw [align_extend_eq schema df hex]
    rfl
  · rw [align_extend_eq schema df hex]
    exact get_table_columns_ensure _ _
  · rw [align_extend_eq schema df hex]
  · obtain ⟨o, h1, -, -, -, h5⟩ := align_spec schema df true
    exact ⟨o, h1, fun c hc => h5 c hc rfl⟩

/-- C4 witness: the spec's scenario — dataset columns `{id, name,
category_name}`, target `{id, name}` — ends with the schema extended by
`category_name TEXT NULL` and the output's `category_name` all null. -/
theorem C4_extras_added_as_null_witness :
    (align_df_to_table scenario_schema scenario_df true).schema =
      [("id", "INT"), ("name", "TEXT"), ("category_name", "TEXT NULL")] ∧
    ∃ o, (align_df_to_table scenario_schema scenario_df true).out = some o ∧
      ∀ c ∈ extra_of scenario_schema scenario_df,
        o.getCol c = List.replicate scenario_df.rows.length Value.vNull := by
  have h := C4_extras_added_as_null scenario_schema scenario_df (by decide)
  exact ⟨h.1.trans (by decide), h.2.2.2⟩

/-- C9: a dataset column already present in the target column list at
alignment time passes through unchanged — the discard-to-null applies only
to columns absent from the schema; consequently, on a re-run after a prior
aligned load extended the schema, every dataset column's CSV-provided
values are handed on rather than forced to null. -/
theorem C9_known_columns_pass_through (schema : Schema) (df : DataFrame) (c : String)
    (h1 : c ∈ df.cols) :
    (∀ b : Bool, c ∈ get_table_columns schema →
      ∃ o, (align_df_to_table schema df b).out = some o ∧ o.getCol c = df.getCol c) ∧
    (∃ o, (align_df_to_table (align_df_to_table schema df true).schema df true).out = some o ∧
      o.getCol c = df.getCol c) := by
  constructor
  · intro b hct
    obtain ⟨o, ho, -, -, h4, -⟩ := align_spec schema df b
    exact ⟨o, ho, h4 c h1 hct⟩
  · have hct1 : c ∈ get_table_columns (align_df_to_table schema df true).schema := by
      by_cases hex : extra_of schema df = []
      · rw [align_no_extra_eq schema df true hex]
        by_cases hc : c ∈ get_table_columns schema
        · exact hc
        · exfalso
          have hmem : c ∈ extra_of schema df := (mem_extra_of _ _ _).mpr ⟨h1, hc⟩
          rw [hex] at hmem
          cases hmem
      · rw [align_extend_eq schema df hex]
        rw [get_table_columns_ensure]
        by_cases hc : c ∈ get_table_columns schema
        · exact List.mem_append.mpr (Or.inl hc)
        · exact List.mem_append.mpr (Or.inr ((mem_extra_of _ _ _).mpr ⟨h1, hc⟩))
    obtain ⟨o, ho, -, -, h4, -⟩ := align_spec (align_df_to_table schema df true).schema df true
    exact ⟨o, ho, h4 c h1 hct1⟩

/-- C9 witness: re-running the spec's scenario after the schema was extended
with `category_name` hands the CSV value of `category_name` through
unchanged instead of forcing it to null. -/
theorem C9_known_columns_pass_through_witness :
    ∃ o, (align_df_to_table (align_df_to_table scenario_schema scenario_df true).schema
        scenario_df true).out = some o ∧
      o.getCol "category_name" = scenario_df.getCol "category_name" :=
  (C9_known_columns_pass_through scenario_schema scenario_df "category_name" (by decide)).2

/-- C10: `--add-extras-as-null` is declared `store_true` with default
`True`, so the parsed value is `True` for every command line, and the
drop-extras branch of `align_df_to_table` (its `droppedExtras` outcome) is
unreachable from `main`. -/
theorem C10_drop_branch_unreachable :
    (∀ p : Bool, parse_add_extras_as_null p = true) ∧
    (∀ (p : Bool) (schema : Schema) (df : DataFrame),
      (align_df_to_table schema df (parse_add_extras_as_null p)).droppedExtras = false) := by
  constructor
  · intro p
    cases p <;> rfl
  · intro p schema df
    have hp : parse_add_extras_as_null p = true := by cases p <;> rfl
    rw [hp]
    by_cases hex : extra_of schema df = []
    · rw [align_no_extra_eq schema df true hex]
    · rw [align_extend_eq schema df hex]

/-! ## Null and boolean normalization -/

theorem getCol_normalise_nulls (df : DataFrame) (c : String) :
    (normalise_nulls df).getCol c = (df.getCol c).map normalise_value := by
  unfold normalise_nulls DataFrame.getCol
  simp only [List.map_map]
  rfl

/-- C2: `normalise_nulls` maps each of the null-like raw forms — NaN, the
two infinities, and the strings `"nan"`, `"NaN"`, `"None"`, `""` — to the
null marker, and every other value to itself; the dataframe version applies
this cell map to every column. -/
theorem C2_null_like_to_null (v : Value) :
    (null_like v → normalise_value v = .vNull) ∧
    (¬ null_like v → normalise_value v = v) ∧
    (∀ (df : DataFrame) (c : String),
      (normalise_nulls df).getCol c = (df.getCol c).map normalise_value) := by
  refine ⟨?_, ?_, fun df c => getCol_normalise_nulls df c⟩
  · intro h
    rcases h with rfl | rfl | rfl | rfl | rfl | rfl | rfl <;> rfl
  · intro h
    cases v with
    | vNull => rfl
    | vNaN => exact absurd (by simp [null_like]) h
    | vInf => exact absurd (by simp [null_like]) h
    | vNegInf => exact absurd (by simp [null_like]) h
    | vBool b => rfl
    | vInt n => rfl
    | vStr s =>
      show (if s = "nan" ∨ s = "NaN" ∨ s = "None" ∨ s = "" then Value.vNull else Value.vStr s) =
        Value.vStr s
      rw [if_neg]
      intro hs
      apply h
      unfold null_like
      rcases hs with rfl | rfl | rfl | rfl <;> simp

/-- C3: `to_bool_int` converts a cell to text, lower-cases it, and stores 1
exactly when the result is one of `{"true","1","t","yes","y"}` and 0
otherwise; so the output is always one of exactly two stored values, the
mapping is case-insensitive on its truthy forms, and the scenario column
`["Yes","0","TRUE","maybe"]` normalizes to `[1, 0, 1, 0]`. -/
theorem C3_boolean_normalisation :
    (∀ v : Value, to_bool_int_value v = .vInt 1 ∨ to_bool_int_value v = .vInt 0) ∧
    (∀ v : Value, to_bool_int_value v = .vInt 1 ↔ py_lower (pyStr v) ∈ truthy_strings) ∧
    (to_bool_int_value (.vStr "TRUE") = .vInt 1 ∧
     to_bool_int_value (.vStr "true") = .vInt 1 ∧
     to_bool_int_value (.vStr "1") = .vInt 1 ∧
     to_bool_int_value (.vStr "Y") = .vInt 1 ∧
     to_bool_int_value (.vStr "y") = .vInt 1) ∧
    (to_bool_int bool_scenario_df ["flag"]).getCol "flag" =
      [.vInt 1, .vInt 0, .vInt 1, .vInt 0] := by
  refine ⟨?_, ?_, by decide, by decide⟩
  · intro v
    unfold to_bool_int_value
    by_cases h : truthy_strings.contains (py_lower (pyStr v))
    · rw [if_pos h]
      exact Or.inl rfl
    · rw [if_neg h]
      exact Or.inr rfl
  · intro v
    unfold to_bool_int_value
    by_cases h : truthy_strings.contains (py_lower (pyStr v))
    · rw [if_pos h]
      simp [(contains_iff_mem _ _).mp h]
    · rw [if_neg h]
      have hm : ¬ py_lower (pyStr v) ∈ truthy_strings :=
        fun hmem => h ((contains_iff_mem _ _).mpr hmem)
      simp [hm]

/-- Each table designates at most one boolean column, so membership pins the
whole designated list down. -/
theorem bool_cols_singleton (t c : String) (h : c ∈ BOOL_COLS t) : BOOL_COLS t = [c] := by
  unfold BOOL_COLS at h ⊢
  split_ifs at h ⊢ <;> simp_all

/-- Null normalization never changes the outcome of boolean normalization:
every null-like raw form and the null marker alike text-lower to a
non-truthy string. -/
theorem to_bool_int_value_normalise (v : Value) :
    to_bool_int_value (normalise_value v) = to_bool_int_value v := by
  cases v with
  | vNull => rfl
  | vNaN => decide
  | vInf => decide
  | vNegInf => decide
  | vBool b => cases b <;> rfl
  | vInt n => rfl
  | vStr s =>
    show to_bool_int_value
        (if s = "nan" ∨ s = "NaN" ∨ s = "None" ∨ s = "" then Value.vNull else Value.vStr s) =
      to_bool_int_value (Value.vStr s)
    by_cases h : s = "nan" ∨ s = "NaN" ∨ s = "None" ∨ s = ""
    · rw [if_pos h]
      rcases h with rfl | rfl | rfl | rfl <;> decide
    · rw [if_neg h]

theorem getCol_mapCol (df : DataFrame) (c : String) (g : Value → Value) :
    (df.mapCol c g).getCol c = (df.getCol c).map g := by
  unfold DataFrame.mapCol DataFrame.getCol
  simp only [List.map_map]
  have hfun : ((fun r : String → Value => r c) ∘
      fun (r : String → Value) (x : String) => if x = c then g (r x) else r x) =
      fun r : String → Value => g (r c) := by
    funext r
    simp
  rw [hfun]
  rfl

/-- C6 counterexample: `load_table` runs `normalise_nulls` on the whole
dataframe, designated boolean columns included, before `to_bool_int`; on a
`customers` dataset whose designated boolean column `repeat_customer_flag`
holds the string `"nan"`, that step rewrites the column's value — so the
null-normalization step is applied to a designated boolean column's values
on the path from raw input to stored value. -/
theorem C6_counterexample :
    "repeat_customer_flag" ∈ BOOL_COLS "customers" ∧
    bool_nan_df.getCol "repeat_customer_flag" = [Value.vStr "nan"] ∧
    (normalise_nulls bool_nan_df).getCol "repeat_customer_flag" = [Value.vNull] ∧
    (normalise_nulls bool_nan_df).getCol "repeat_customer_flag" ≠
      bool_nan_df.getCol "repeat_customer_flag" :=
  ⟨by decide, by decide, by decide, by decide⟩

/-- C6 (amended): `load_table` does apply null normalization to designated
boolean columns (it normalizes the whole dataframe first), but the step can
never change the stored boolean value: boolean conversion yields the same
result on the normalized and the raw cell, cell-wise and column-wise. -/
theorem C6_bool_columns_normalisation_harmless :
    (∀ v : Value, to_bool_int_value (normalise_value v) = to_bool_int_value v) ∧
    (∀ (table : String) (df : DataFrame) (c : String),
      c ∈ BOOL_COLS table → c ∈ df.cols →
      (to_bool_int (normalise_nulls df) (BOOL_COLS table)).getCol c =
        (to_bool_int df (BOOL_COLS table)).getCol c) := by
  refine ⟨to_bool_int_value_normalise, ?_⟩
  intro table df c hbc hdc
  rw [bool_cols_singleton table c hbc]
  have hcontains : df.cols.contains c = true := (contains_iff_mem _ _).mpr hdc
  have e1 : to_bool_int df [c] = df.mapCol c to_bool_int_value := by
    show (if df.cols.contains c then df.mapCol c to_bool_int_value else df) =
      df.mapCol c to_bool_int_value
    rw [if_pos hcontains]
  have e2 : to_bool_int (normalise_nulls df) [c] =
      (normalise_nulls df).mapCol c to_bool_int_value := by
    show (if (normalise_nulls df).cols.contains c
        then (normalise_nulls df).mapCol c to_bool_int_value else normalise_nulls df) =
      (normalise_nulls df).mapCol c to_bool_int_value
    have hcontains2 : (normalise_nulls df).cols.contains c = true := hcontains
    rw [if_pos hcontains2]
  rw [e1, e2, getCol_mapCol, getCol_mapCol, getCol_normalise_nulls, List.map_map]
  exact List.map_congr_left (fun a _ => to_bool_int_value_normalise a)

/-! ## Batching and the idempotent insert -/

theorem chunked_flatten {α : Type _} (size : Nat) (hs : 0 < size) (l : List α) :
    (chunked l size).flatten = l := by
  have H : ∀ (n : Nat) (l : List α), l.length ≤ n → (chunked l size).flatten = l := by
    intro n
    induction n with
    | zero =>
      intro l hl
      have h0 : l = [] := List.length_eq_zero.mp (Nat.le_zero.mp hl)
      subst h0
      rw [chunked]
      simp
    | succ n ih =>
      intro l hl
      by_cases he : l = []
      · subst he
        rw [chunked]
        simp
      · have he2 : ¬ (l.isEmpty = true) := by simpa [List.isEmpty_iff] using he
        rw [chunked, dif_neg (Nat.pos_iff_ne_zero.mp hs), dif_neg he2, List.flatten_cons,
          ih (l.drop size) ?_, List.take_append_drop]
        have h1 : 0 < l.length := List.length_pos.mpr he
        simp only [List.length_drop]
        omega
  exact H l.length l le_rfl

theorem chunked_part_length_le {α : Type _} (size : Nat) (hs : 0 < size) (l : List α) :
    ∀ part ∈ chunked l size, part.length ≤ size := by
  have H : ∀ (n : Nat) (l : List α), l.length ≤ n →
      ∀ part ∈ chunked l size, part.length ≤ size := by
    intro n
    induction n with
    | zero =>
      intro l hl part hp
      have h0 : l = [] := List.length_eq_zero.mp (Nat.le_zero.mp hl)
      subst h0
      rw [chunked] at hp
      simp at hp
    | succ n ih =>
      intro l hl part hp
      by_cases he : l = []
      · subst he
        rw [chunked] at hp
        simp at hp
      · have he2 : ¬ (l.isEmpty = true) := by simpa [List.isEmpty_iff] using he
        rw [chunked, dif_neg (Nat.pos_iff_ne_zero.mp hs), dif_neg he2] at hp
        rcases List.mem_cons.mp hp with rfl | hmem
        · rw [List.length_take]
          exact min_le_left _ _
        · have h1 : 0 < l.length := List.length_pos.mpr he
          refine ih (l.drop size) ?_ part hmem
          simp only [List.length_drop]
          omega
  exact H l.length l le_rfl

theorem insert_ignore_cons (k : Row → Value) (st : List Row) (r : Row) (rs : List Row) :
    insert_ignore k st (r :: rs) =
      insert_ignore k (if st.any (fun s0 => k s0 = k r) then st else st ++ [r]) rs := rfl

theorem insert_ignore_append (k : Row → Value) (st a b : List Row) :
    insert_ignore k st (a ++ b) = insert_ignore k (insert_ignore k st a) b :=
  List.foldl_append _ _ _ _

theorem foldl_insert_flatten (k : Row → Value) (cs : List (List Row)) (st : List Row) :
    cs.foldl (fun st part => insert_ignore k st part) st = insert_ignore k st cs.flatten := by
  induction cs generalizing st with
  | nil => rfl
  | cons c cs ih =>
    rw [List.foldl_cons, ih, List.flatten_cons, insert_ignore_append]

theorem load_insert_eq_insert_ignore (k : Row → Value) (st tuples : List Row) :
    load_insert k st tuples = insert_ignore k st tuples := by
  unfold load_insert
  rw [foldl_insert_flatten, chunked_flatten 5000 (by omega)]

theorem mem_insert_ignore (k : Row → Value) (batch : List Row) :
    ∀ (st : List Row) (r0 : Row), r0 ∈ st → r0 ∈ insert_ignore k st batch := by
  induction batch with
  | nil => exact fun st r0 h => h
  | cons r rs ih =>
    intro st r0 h
    rw [insert_ignore_cons]
    apply ih
    by_cases hc : st.any (fun s0 => k s0 = k r) = true
    · rw [if_pos hc]
      exact h
    · rw [if_neg hc]
      exact List.mem_append.mpr (Or.inl h)

theorem insert_ignore_key_present (k : Row → Value) (batch : List Row) :
    ∀ (st : List Row) (r : Row), r ∈ batch →
      ∃ s0 ∈ insert_ignore k st batch, k s0 = k r := by
  induction batch with
  | nil =>
    intro st r h
    cases h
  | cons b bs ih =>
    intro st r h
    rw [insert_ignore_cons]
    rcases List.mem_cons.mp h with rfl | hmem
    · by_cases hc : st.any (fun s0 => k s0 = k r) = true
      · rw [if_pos hc]
        obtain ⟨s0, hs0, hk⟩ := List.any_eq_true.mp hc
        exact ⟨s0, mem_insert_ignore k bs _ s0 hs0, of_decide_eq_true hk⟩
      · rw [if_neg hc]
        exact ⟨r, mem_insert_ignore k bs _ r (List.mem_append.mpr (Or.inr (by simp))), rfl⟩
    · exact ih _ r hmem

theorem insert_ignore_noop (k : Row → Value) (batch : List Row) :
    ∀ st : List Row, (∀ r ∈ batch, ∃ s0 ∈ st, k s0 = k r) →
      insert_ignore k st batch = st := by
  induction batch with
  | nil => exact fun st _ => rfl
  | cons b bs ih =>
    intro st h
    rw [insert_ignore_cons]
    have hb : st.any (fun s0 => k s0 = k b) = true := by
      obtain ⟨s0, hs0, hk⟩ := h b (List.mem_cons_self _ _)
      exact List.any_eq_true.mpr ⟨s0, hs0, decide_eq_true hk⟩
    rw [if_pos hb]
    exact ih st (fun r hr => h r (List.mem_cons_of_mem _ hr))

theorem insert_sql_head (table : String) (cols : List String) :
    ∃ rest, insert_sql table cols = "INSERT IGNORE INTO `" ++ rest := by
  refine ⟨table ++ ("` (" ++
    (String.intercalate ", " (cols.map (fun c => "`" ++ c ++ "`")) ++
      (") VALUES (" ++ (String.intercalate "," (List.replicate cols.length "%s") ++ ")")))),
    ?_⟩
  unfold insert_sql
  simp [String.append_assoc]

/-- C7: `chunked` cuts the dataset into consecutive slices of at most `size`
rows (the batch-size parameter, 5000 at `load_table`'s call site) whose
in-order concatenation is exactly the input — so the batches respect dataset
row order and every row lands in exactly one batch. -/
theorem C7_chunked_batches (l : List Row) (size : Nat) (hs : 0 < size) :
    (chunked l size).flatten = l ∧
    (∀ part ∈ chunked l size, part.length ≤ size) :=
  ⟨chunked_flatten size hs l, chunked_part_length_le size hs l⟩

/-- C7 witness: batches of size 2 over three one-cell rows re-concatenate to
the input. -/
theorem C7_chunked_batches_witness :
    (chunked [[Value.vInt 1], [Value.vInt 2], [Value.vInt 3]] 2).flatten =
      [[Value.vInt 1], [Value.vInt 2], [Value.vInt 3]] :=
  (C7_chunked_batches [[Value.vInt 1], [Value.vInt 2], [Value.vInt 3]] 2 (by decide)).1

/-- C5: `load_table` builds an `INSERT IGNORE` statement; its batched insert
loop equals a single ignore-on-conflict insert of all tuples, which is
idempotent — re-loading the same tuples changes nothing, and more generally
a load whose rows' primary keys are all already stored inserts no rows. -/
theorem C5_idempotent_load :
    (∀ (table : String) (cols : List String),
      ∃ rest, insert_sql table cols = "INSERT IGNORE INTO `" ++ rest) ∧
    (∀ (k : Row → Value) (stored tuples : List Row),
      load_insert k stored tuples = insert_ignore k stored tuples) ∧
    (∀ (k : Row → Value) (stored tuples : List Row),
      load_insert k (load_insert k stored tuples) tuples = load_insert k stored tuples) ∧
    (∀ (k : Row → Value) (stored tuples : List Row),
      (∀ r ∈ tuples, ∃ s0 ∈ stored, k s0 = k r) → load_insert k stored tuples = stored) := by
  refine ⟨insert_sql_head, load_insert_eq_insert_ignore, ?_, ?_⟩
  · intro k stored tuples
    simp only [load_insert_eq_insert_ignore]
    exact insert_ignore_noop k tuples _
      (fun r hr => insert_ignore_key_present k tuples stored r hr)
  · intro k stored tuples h
    rw [load_insert_eq_insert_ignore]
    exact insert_ignore_noop k tuples stored h

/-! ## The main loop's skip behaviour -/

theorem processTables_eq_map (p : String → Bool) (ns : List String) :
    processTables p ns =
      ns.map (fun n => (n, if p n then TableOutcome.loaded else TableOutcome.skipped)) := by
  induction ns with
  | nil => rfl
  | cons n rest ih =>
    by_cases h : p n <;> simp [processTables, h, ih]

/-- C8: for every predicate saying which tables' CSV files exist, `main`'s
loop still visits every one of the 21 tables of `LOAD_ORDER`, in order; each
absent table is skipped with a notice and each present table is loaded —
a missing file never stops the remaining tables from being processed. -/
theorem C8_missing_file_skips (present : String → Bool) :
    ((processTables present LOAD_ORDER).map Prod.fst = LOAD_ORDER) ∧
    (processTables present LOAD_ORDER =
      LOAD_ORDER.map
        (fun n => (n, if present n then TableOutcome.loaded else TableOutcome.skipped))) ∧
    (∀ n ∈ LOAD_ORDER, present n = false →
      (n, TableOutcome.skipped) ∈ processTables present LOAD_ORDER) ∧
    (∀ n ∈ LOAD_ORDER, present n = true →
      (n, TableOutcome.loaded) ∈ processTables present LOAD_ORDER) := by
  refine ⟨?_, processTables_eq_map present LOAD_ORDER, ?_, ?_⟩
  · rw [processTables_eq_map, List.map_map]
    have hcomp : (Prod.fst ∘ fun n : String =>
        (n, if present n then TableOutcome.loaded else TableOutcome.skipped)) = id := by
      funext n
      rfl
    rw [hcomp, List.map_id]
  · intro n hn hp
    rw [processTables_eq_map]
    exact List.mem_map.mpr ⟨n, hn, by simp [hp]⟩
  · intro n hn hp
    rw [processTables_eq_map]
    exact List.mem_map.mpr ⟨n, hn, by simp [hp]⟩

end AgLoader
